import Mathlib

/-!
Shallow embedding of the research-analysis pipeline of
`personal-portfolio/backend/app/ml/research_analyzer.py` and of the service
layer `personal-portfolio/backend/app/services/research_service.py`.

Modelling conventions:
* Python floats are modelled as real numbers (`ℝ`).
* Python text is `String`; `str.split('.')`, `str.split()` (whitespace) and
  `str.lower()` are implemented over the character list `String.data`, with
  Python's exact semantics, so the kernel can evaluate them.
* Python dicts of float-valued metrics are association lists
  `List (String × ℝ)`; `key in d` / `d[key]` is `List.lookup`.
* The pre-trained models (SciBERT, SPECTER, the universal sentence encoder,
  the TF-IDF/LDA pipeline) are opaque: a `ModelOracle` supplies their raw
  outputs, and the code that post-processes those outputs is embedded
  faithfully.
-/

namespace PortfolioResearch

/-- Python `str.split(sep)` for a one-character separator `sep`, on the
character list: splits at every occurrence, keeping empty parts, and yields
`[[]]` on the empty text (so always at least one part). -/
def splitOnChar (sep : Char) : List Char → List (List Char)
  | [] => [[]]
  | c :: cs =>
    if c = sep then [] :: splitOnChar sep cs
    else
      match splitOnChar sep cs with
      | [] => [[c]]
      | w :: ws => (c :: w) :: ws

/-- Python `str.split()` (no separator): split on whitespace runs and drop
empty parts. -/
def whitespaceWords (cs : List Char) : List (List Char) :=
  ((cs.map fun c => if c.isWhitespace then ' ' else c) |> splitOnChar ' ').filter
    (fun w => w ≠ [])

/-- Python `str.lower()` (ASCII-adequate for the fixed vocabulary). -/
def lowerChars (cs : List Char) : List Char :=
  cs.map Char.toLower

/-- The sentence list `text.split('.')` of `calculate_coherence_score`. -/
def sentencesOf (text : String) : List String :=
  (splitOnChar '.' text.data).map fun w => ⟨w⟩

/-- The lowered word list `text.lower().split()` of `count_technical_terms`. -/
def lowerWords (text : String) : List String :=
  (whitespaceWords (lowerChars text.data)).map fun w => ⟨w⟩

/-- `ResearchAnalyzer.get_technical_terms`: the fixed 13-term vocabulary. -/
def get_technical_terms : Finset String :=
  {"algorithm", "methodology", "framework", "analysis",
   "model", "system", "data", "research", "study",
   "implementation", "results", "performance", "evaluation"}

/-- `ResearchAnalyzer.count_technical_terms`:
`len(set(text.lower().split()) & self.get_technical_terms())`. -/
def count_technical_terms (text : String) : ℕ :=
  ((lowerWords text).toFinset ∩ get_technical_terms).card

noncomputable section

/-- `np.mean` over a list (its sum divided by its length; the pipeline only
applies it to nonempty literal lists). -/
def listMean (l : List ℝ) : ℝ := l.sum / l.length

/-- `torch.std` of a vector: the Bessel-corrected sample standard deviation,
the square root of the squared deviations from the mean divided by `n - 1`. -/
def sampleStd (v : List ℝ) : ℝ :=
  Real.sqrt ((v.map fun x => (x - listMean v) ^ 2).sum / ((v.length : ℝ) - 1))

/-- Dot product of two rows (one entry of `tf.matmul(E, E, transpose_b=True)`). -/
def dotProd (a b : List ℝ) : ℝ := (List.zipWith (· * ·) a b).sum

/-- `last_hidden_state.mean(dim=1)`: the token-wise mean of a (tokens × hidden)
matrix, one pooled vector of the hidden dimension. -/
def meanPool (rows : List (List ℝ)) : List ℝ :=
  (List.range (rows.headD []).length).map fun j =>
    listMean (rows.map fun r => r.getD j 0)

/-- The transient analysis input
`{title, abstract, content, keywords}` handed to `analyze_research`. -/
structure AnalysisInput where
  title : String
  abstract : String
  content : String
  keywords : List String

/-- Raw outputs of the pre-trained models the analyzer calls.  The first three
fields are the opaque encoders the file loads in `initialize_models`.  The
remaining fields are *modelled from the spec*: the helper methods
`calculate_uniqueness`, `assess_innovation`, `identify_methodology_types`,
`assess_methodology_robustness`, `assess_validation_methods`,
`predict_academic_impact`, `predict_practical_impact` and
`predict_citation_potential` are called by the sub-routines but are not
present anywhere under the repository's files; the spec delegates their
behavior to the pre-trained models ("behavior is delegated to the model, not
algorithmic"), so each is an uninterpreted function of its argument. -/
structure ModelOracle where
  /-- `self.bert_model(...)` last hidden state for a text (tokens × hidden). -/
  bertLastHidden : String → List (List ℝ)
  /-- `self.use_model(sentences)`: one embedding row per sentence. -/
  useEmbed : List String → List (List ℝ)
  /-- `self.sentence_transformer.encode(text)`. -/
  specterEmbed : String → List ℝ
  /-- Modelled from the spec: `calculate_uniqueness(embeddings)` is missing
  from the repository's files. -/
  uniqueness : List ℝ → ℝ
  /-- Modelled from the spec: `assess_innovation(research_data)` is missing. -/
  innovation : AnalysisInput → ℝ
  /-- Modelled from the spec: `identify_methodology_types(content)` is
  missing; it yields the detected methodology-type labels. -/
  methodologyTypes : String → List String
  /-- Modelled from the spec: `assess_methodology_robustness(content)` is
  missing. -/
  robustness : String → ℝ
  /-- Modelled from the spec: `assess_validation_methods(content)` is
  missing. -/
  validation : String → ℝ
  /-- Modelled from the spec: `predict_academic_impact(embeddings)` is
  missing. -/
  academicImpact : List ℝ → ℝ
  /-- Modelled from the spec: `predict_practical_impact(research_data)` is
  missing. -/
  practicalImpact : AnalysisInput → ℝ
  /-- Modelled from the spec: `predict_citation_potential(research_data)` is
  missing. -/
  citationPotential : AnalysisInput → ℝ
  /-- The per-call TF-IDF + LDA pipeline of `extract_topics`, delegated to the
  fitted models: topic identifier ↦ (top words, weight). -/
  extractTopics : String → List (String × List String × ℝ)

/-- A float-valued metrics dict, e.g. the return value of
`analyze_content_quality` (the non-numeric `methodology_types` entry of the
methodology dict is carried separately, see `analyze_methodology_types`). -/
abbrev SubResult := List (String × ℝ)

/-- `ResearchAnalyzer.calculate_clarity_score` applied to
`outputs.last_hidden_state.mean(dim=1)`: `torch.std(embeddings, dim=1)` of the
1 × hidden pooled matrix is the sample standard deviation across the hidden
features, and `torch.mean` of that single value is the value itself. -/
def calculate_clarity_score (o : ModelOracle) (text : String) : ℝ :=
  sampleStd (meanPool (o.bertLastHidden text))

/-- `ResearchAnalyzer.calculate_coherence_score`: split the text into
sentences on `'.'`; with fewer than two sentences return `0.8`; otherwise
embed the sentences, form the pairwise similarity matrix
`tf.matmul(E, E, transpose_b=True)` and return `tf.reduce_mean` over all of
its entries. -/
def calculate_coherence_score (o : ModelOracle) (text : String) : ℝ :=
  let sentences := sentencesOf text
  if sentences.length < 2 then 0.8
  else
    let E := o.useEmbed sentences
    listMean (E.map fun r1 => E.map fun r2 => dotProd r1 r2).flatten

/-- `ResearchAnalyzer.assess_technical_depth`:
`min(1.0, technical_terms / 100)`. -/
def assess_technical_depth (text : String) : ℝ :=
  min 1.0 ((count_technical_terms text : ℝ) / 100)

/-- `ResearchAnalyzer.analyze_content_quality`: scores the concatenation
`f"{title} {abstract}"` and returns the quality metrics dict. -/
def analyze_content_quality (o : ModelOracle) (input : AnalysisInput) :
    SubResult :=
  let text := input.title ++ " " ++ input.abstract
  let clarity := calculate_clarity_score o text
  let coherence := calculate_coherence_score o text
  let technical_depth := assess_technical_depth text
  [("clarity", clarity), ("coherence", coherence),
   ("technical_depth", technical_depth),
   ("overall_quality", listMean [clarity, coherence, technical_depth])]

/-- `ResearchAnalyzer.analyze_novelty`: embeds `f"{title} {abstract}"` with
the sentence transformer and returns the novelty metrics dict. -/
def analyze_novelty (o : ModelOracle) (input : AnalysisInput) : SubResult :=
  let text := input.title ++ " " ++ input.abstract
  let embeddings := o.specterEmbed text
  let uniqueness := o.uniqueness embeddings
  let innovation := o.innovation input
  [("uniqueness", uniqueness), ("innovation", innovation),
   ("overall_novelty", listMean [uniqueness, innovation])]

/-- The numeric part of `ResearchAnalyzer.analyze_methodology`, scored on
`content`.  The returned Python dict also holds the non-numeric entry
`'methodology_types'`, modelled by `analyze_methodology_types`; the numeric
association list carries the float-valued entries, which are the only ones
aggregation can read. -/
def analyze_methodology (o : ModelOracle) (input : AnalysisInput) :
    SubResult :=
  let content := input.content
  let robustness := o.robustness content
  let validation := o.validation content
  [("robustness", robustness), ("validation", validation),
   ("overall_methodology", listMean [robustness, validation])]

/-- The `'methodology_types'` entry of `analyze_methodology`'s dict. -/
def analyze_methodology_types (o : ModelOracle) (input : AnalysisInput) :
    List String :=
  o.methodologyTypes input.content

/-- `ResearchAnalyzer.analyze_impact_potential`: embeds
`f"{title} {abstract}"` with the universal sentence encoder (first row of
`use_model([text])`) and returns the impact metrics dict. -/
def analyze_impact_potential (o : ModelOracle) (input : AnalysisInput) :
    SubResult :=
  let text := input.title ++ " " ++ input.abstract
  let embeddings := (o.useEmbed [text]).headD []
  let academic_impact := o.academicImpact embeddings
  let practical_impact := o.practicalImpact input
  let citation_potential := o.citationPotential input
  [("academic_impact", academic_impact),
   ("practical_impact", practical_impact),
   ("citation_potential", citation_potential),
   ("overall_impact",
    listMean [academic_impact, practical_impact, citation_potential])]

/-- The weights dict of `calculate_overall_score`, in insertion order. -/
def overallWeights : List (String × ℝ) :=
  [("content_quality", 0.3), ("novelty", 0.25),
   ("methodology", 0.25), ("impact_potential", 0.2)]

/-- The summation key `'overall_' + metric.split('_')[0]` of
`calculate_overall_score`. -/
def aggKey (metric : String) : String :=
  ⟨"overall_".data ++ ((splitOnChar '_' metric.data).headD [])⟩

/-- `ResearchAnalyzer.calculate_overall_score`: zip the sub-results with the
weights; for each pair whose derived key is present in the sub-result's dict,
append `result[key] * weight` to `scores`; return `sum(scores)`.  (Every
embedded sub-result is a dict, so the `isinstance(result, dict)` guard always
holds.) -/
def calculate_overall_score (results : List SubResult) : ℝ :=
  ((results.zip overallWeights).filterMap fun p =>
    (p.1.lookup (aggKey p.2.1)).map (· * p.2.2)).sum

/-- The dict returned by `ResearchAnalyzer.analyze_research`, one field per
key. -/
structure AnalysisResult where
  content_quality : SubResult
  novelty : SubResult
  methodology : SubResult
  impact_potential : SubResult
  overall_score : ℝ

/-- `ResearchAnalyzer.analyze_research` with every model invocation
succeeding: gather the four sub-routine results and build the result dict,
with `overall_score = calculate_overall_score(results)`. -/
def analyze_research (o : ModelOracle) (input : AnalysisInput) :
    AnalysisResult :=
  let content_quality := analyze_content_quality o input
  let novelty := analyze_novelty o input
  let methodology := analyze_methodology o input
  let impact := analyze_impact_potential o input
  { content_quality := content_quality
    novelty := novelty
    methodology := methodology
    impact_potential := impact
    overall_score :=
      calculate_overall_score [content_quality, novelty, methodology, impact] }

/-- `asyncio.gather` over four awaitables without `return_exceptions`: if every
task completes, the ordered tuple of results; if any task raises, the
exception propagates and no tuple is produced. -/
def gatherFour {ε α β γ δ : Type} :
    Except ε α → Except ε β → Except ε γ → Except ε δ →
      Except ε (α × β × γ × δ)
  | .error e, _, _, _ => .error e
  | .ok _, .error e, _, _ => .error e
  | .ok _, .ok _, .error e, _ => .error e
  | .ok _, .ok _, .ok _, .error e => .error e
  | .ok a, .ok b, .ok c, .ok d => .ok (a, b, c, d)

/-- `ResearchAnalyzer.analyze_research` with fallible sub-routines: each of
the four scoring sub-routines is an `Except` computation (any model invocation
inside it may raise); they are joined with `asyncio.gather` and only then is
the result dict built. -/
def analyze_research_gathered {ε : Type}
    (quality novelty methodology impact : Except ε SubResult) :
    Except ε AnalysisResult :=
  (gatherFour quality novelty methodology impact).map fun r =>
    { content_quality := r.1
      novelty := r.2.1
      methodology := r.2.2.1
      impact_potential := r.2.2.2
      overall_score :=
        calculate_overall_score [r.1, r.2.1, r.2.2.1, r.2.2.2] }

/-! ### The service layer (`app/services/research_service.py`) -/

/-- A topic distribution: topic identifier ↦ (top words, weight). -/
abbrev TopicDist := List (String × List String × ℝ)

/-- The columns of the `Research` record that `ResearchService.update` and
`ResearchService.find_similar` touch.  A stored embedding that is Python-falsy
(`None` or `[]`) is the empty list. -/
structure Research where
  id : ℤ
  title : String
  abstract : String
  content : String
  keywords : List String
  status : String
  analysis_results : AnalysisResult
  embedding_vector : List ℝ
  topic_distribution : TopicDist

/-- `self.db.query(Research).filter(Research.id == research_id).first()`. -/
def dbGet (db : List Research) (research_id : ℤ) : Option Research :=
  db.find? fun r => r.id = research_id

/-- The `update_data` dict of `ResearchService.update`: each key present in
the dict is assigned to the record by `setattr`.  (Scalar columns not
interacting with analysis, such as `doi`, behave exactly like `status`.) -/
structure UpdateData where
  title : Option String
  abstract : Option String
  content : Option String
  keywords : Option (List String)
  status : Option String
  analysis_results : Option AnalysisResult
  embedding_vector : Option (List ℝ)
  topic_distribution : Option TopicDist

/-- The `setattr(research, field, value)` loop: every field present in
`update_data` overwrites the record's column. -/
def applyFields (r : Research) (u : UpdateData) : Research :=
  { r with
    title := u.title.getD r.title
    abstract := u.abstract.getD r.abstract
    content := u.content.getD r.content
    keywords := u.keywords.getD r.keywords
    status := u.status.getD r.status
    analysis_results := u.analysis_results.getD r.analysis_results
    embedding_vector := u.embedding_vector.getD r.embedding_vector
    topic_distribution := u.topic_distribution.getD r.topic_distribution }

/-- `any(field in update_data for field in {'title', 'abstract', 'content'})`. -/
def contentChanged (u : UpdateData) : Bool :=
  u.title.isSome || u.abstract.isSome || u.content.isSome

/-- The re-analysis block of `ResearchService.update` (and of `create`):
`analyze_research` on the record's four text fields, `generate_embedding` on
`f"{title} {abstract}"` (a `sentence_transformer.encode` call) and
`extract_topics` on `content`, each written onto the record. -/
def reanalyze (o : ModelOracle) (r : Research) : Research :=
  { r with
    analysis_results :=
      analyze_research o ⟨r.title, r.abstract, r.content, r.keywords⟩
    embedding_vector := o.specterEmbed (r.title ++ " " ++ r.abstract)
    topic_distribution := o.extractTopics r.content }

/-- `ResearchService.update`: fetch the record (`None` when absent), apply the
`setattr` loop, and re-run the analysis pipeline exactly when `update_data`
contains `title`, `abstract` or `content`. -/
def research_update (o : ModelOracle) (db : List Research) (research_id : ℤ)
    (u : UpdateData) : Option Research :=
  (dbGet db research_id).map fun r =>
    let r1 := applyFields r u
    if contentChanged u then reanalyze o r1 else r1

/-- The vector-similarity search of Elasticsearch, opaque to this layer: the
ranked hit ids for a query vector and a requested size. -/
structure EsOracle where
  search : List ℝ → ℕ → List ℤ

/-- `ResearchService.find_similar`: `[]` when the record is absent or its
stored embedding is falsy; otherwise query the index with `size = limit + 1`,
drop the queried id from the hits, keep the first `limit` of them, and return
the stored records whose id is among those hits. -/
def find_similar (es : EsOracle) (db : List Research) (research_id : ℤ)
    (limit : ℕ) : List Research :=
  match dbGet db research_id with
  | none => []
  | some research =>
    if research.embedding_vector = [] then []
    else
      let hits := es.search research.embedding_vector (limit + 1)
      let similar_ids := (hits.filter fun h => h ≠ research_id).take limit
      db.filter fun p => p.id ∈ similar_ids

end

/-! ### Evaluation lemmas -/

lemma aggKey_content_quality : aggKey "content_quality" = "overall_content" := by
  decide

lemma aggKey_novelty : aggKey "novelty" = "overall_novelty" := by decide

lemma aggKey_methodology : aggKey "methodology" = "overall_methodology" := by
  decide

lemma aggKey_impact_potential : aggKey "impact_potential" = "overall_impact" := by
  decide

/-- `calculate_overall_score` on four sub-results shaped as the analyzer
returns them: the key derived for the quality dict is `"overall_content"`,
which the quality dict does not contain, so only the novelty, methodology and
impact terms are summed. -/
lemma calculate_overall_score_on_shapes
    (c₁ c₂ c₃ q u i n rb vl m a p cp imp : ℝ) :
    calculate_overall_score
      [[("clarity", c₁), ("coherence", c₂), ("technical_depth", c₃),
        ("overall_quality", q)],
       [("uniqueness", u), ("innovation", i), ("overall_novelty", n)],
       [("robustness", rb), ("validation", vl), ("overall_methodology", m)],
       [("academic_impact", a), ("practical_impact", p),
        ("citation_potential", cp), ("overall_impact", imp)]] =
      n * 0.25 + (m * 0.25 + imp * 0.2) := by
  simp [calculate_overall_score, overallWeights, aggKey_content_quality,
    aggKey_novelty, aggKey_methodology, aggKey_impact_potential, List.lookup]

/-- The `overall_quality` entry of the content-quality dict. -/
lemma lookup_overall_quality (o : ModelOracle) (input : AnalysisInput) :
    (analyze_content_quality o input).lookup "overall_quality" =
      some (listMean
        [calculate_clarity_score o (input.title ++ " " ++ input.abstract),
         calculate_coherence_score o (input.title ++ " " ++ input.abstract),
         assess_technical_depth (input.title ++ " " ++ input.abstract)]) := by
  simp [analyze_content_quality, List.lookup]

/-- The `coherence` entry of the content-quality dict. -/
lemma lookup_coherence (o : ModelOracle) (input : AnalysisInput) :
    (analyze_content_quality o input).lookup "coherence" =
      some (calculate_coherence_score o
        (input.title ++ " " ++ input.abstract)) := by
  simp [analyze_content_quality, List.lookup]

/-- The `overall_novelty` entry of the novelty dict. -/
lemma lookup_overall_novelty (o : ModelOracle) (input : AnalysisInput) :
    (analyze_novelty o input).lookup "overall_novelty" =
      some (listMean
        [o.uniqueness (o.specterEmbed (input.title ++ " " ++ input.abstract)),
         o.innovation input]) := by
  simp [analyze_novelty, List.lookup]

/-- The `overall_methodology` entry of the methodology dict. -/
lemma lookup_overall_methodology (o : ModelOracle) (input : AnalysisInput) :
    (analyze_methodology o input).lookup "overall_methodology" =
      some (listMean [o.robustness input.content, o.validation input.content]) := by
  simp [analyze_methodology, List.lookup]

/-- The `overall_impact` entry of the impact dict. -/
lemma lookup_overall_impact (o : ModelOracle) (input : AnalysisInput) :
    (analyze_impact_potential o input).lookup "overall_impact" =
      some (listMean
        [o.academicImpact
          ((o.useEmbed [input.title ++ " " ++ input.abstract]).headD []),
         o.practicalImpact input, o.citationPotential input]) := by
  simp [analyze_impact_potential, List.lookup]

/-- What `analyze_research` actually sums: the quality term is dropped (its
derived key `"overall_content"` is absent), leaving
`0.25 * overall_novelty + 0.25 * overall_methodology + 0.2 * overall_impact`. -/
lemma analyze_research_overall_score (o : ModelOracle) (input : AnalysisInput) :
    (analyze_research o input).overall_score =
      ((analyze_novelty o input).lookup "overall_novelty").getD 0 * 0.25 +
      (((analyze_methodology o input).lookup "overall_methodology").getD 0 * 0.25 +
       ((analyze_impact_potential o input).lookup "overall_impact").getD 0 * 0.2) := by
  simp only [analyze_research, lookup_overall_novelty,
    lookup_overall_methodology, lookup_overall_impact, Option.getD_some]
  exact calculate_overall_score_on_shapes _ _ _ _ _ _ _ _ _ _ _ _ _ _

/-- The technical-term count is at most the size of the fixed vocabulary. -/
lemma count_technical_terms_le (text : String) :
    count_technical_terms text ≤ 13 := by
  have h : ((lowerWords text).toFinset ∩ get_technical_terms).card ≤
      get_technical_terms.card :=
    Finset.card_le_card Finset.inter_subset_right
  have hcard : get_technical_terms.card = 13 := by decide
  exact hcard ▸ h

/-- Setting an index to the value it already holds changes nothing. -/
lemma list_set_self {α : Type} :
    ∀ (l : List α) (j : ℕ) (a : α), l.get? j = some a → l.set j a = l
  | [], _, _, h => by simp at h
  | x :: xs, 0, a, h => by simp_all
  | x :: xs, j + 1, a, h => by
    simp only [List.get?_cons_succ] at h
    simp [list_set_self xs j a h]

/-- `get?` of a zip from `get?` of both sides. -/
lemma zip_get?_of_get? {α β : Type} :
    ∀ (l : List α) (l' : List β) (j : ℕ) (a : α) (b : β),
      l.get? j = some a → l'.get? j = some b → (l.zip l').get? j = some (a, b)
  | [], _, _, _, _, h, _ => by simp at h
  | _ :: _, [], _, _, _, _, h' => by simp at h'
  | x :: xs, y :: ys, 0, a, b, h, h' => by simp_all [List.zip_cons_cons]
  | x :: xs, y :: ys, j + 1, a, b, h, h' => by
    simp only [List.get?_cons_succ] at h h'
    simpa [List.zip_cons_cons] using zip_get?_of_get? xs ys j a b h h'

/-- Setting an index on the left list of a zip. -/
lemma zip_set_left {α β : Type} :
    ∀ (l : List α) (l' : List β) (j : ℕ) (x : α) (w : β),
      l'.get? j = some w → (l.set j x).zip l' = (l.zip l').set j (x, w)
  | [], _, _, _, _, _ => by simp
  | _ :: _, [], j, _, _, h => by simp at h
  | a :: as, b :: bs, 0, x, w, h => by simp_all [List.zip_cons_cons]
  | a :: as, b :: bs, j + 1, x, w, h => by
    simp only [List.get?_cons_succ] at h
    simp [List.zip_cons_cons, zip_set_left as bs j x w h]

/-- The summed terms of `calculate_overall_score`, with a dropped term read as
a `0` contribution. -/
lemma calculate_overall_score_as_map (results : List SubResult) :
    calculate_overall_score results =
      ((results.zip overallWeights).map fun p =>
        ((p.1.lookup (aggKey p.2.1)).getD 0) * p.2.2).sum := by
  rw [calculate_overall_score]
  induction results.zip overallWeights with
  | nil => rfl
  | cons hd tl ih =>
    cases h : hd.1.lookup (aggKey hd.2.1) with
    | none => simp [List.filterMap_cons, h, ih]
    | some v => simp [List.filterMap_cons, h, ih]

/-- With fewer than two sentences, coherence scoring short-circuits to the
constant `0.8` without consulting the encoder. -/
lemma coherence_short (o : ModelOracle) (text : String)
    (h : (sentencesOf text).length < 2) :
    calculate_coherence_score o text = 0.8 := by
  simp only [calculate_coherence_score, if_pos h]

/-! ### Concrete instances for witnesses and counterexamples -/

noncomputable section

/-- The spec's end-to-end scenario input
`{title: "X", abstract: "Y", content: "short text.", keywords: []}`. -/
def specInput : AnalysisInput := ⟨"X", "Y", "short text.", []⟩

/-- A concrete model environment: a zero two-feature contextual embedding and
every delegated predictor constantly `1/2`. -/
def constHalfOracle : ModelOracle where
  bertLastHidden := fun _ => [[0, 0]]
  useEmbed := fun _ => []
  specterEmbed := fun _ => []
  uniqueness := fun _ => 1 / 2
  innovation := fun _ => 1 / 2
  methodologyTypes := fun _ => []
  robustness := fun _ => 1 / 2
  validation := fun _ => 1 / 2
  academicImpact := fun _ => 1 / 2
  practicalImpact := fun _ => 1 / 2
  citationPotential := fun _ => 1 / 2
  extractTopics := fun _ => []

/-- The same environment with a sentence encoder whose rows are not
normalized: both sentences embed to the vector `[2]`. -/
def bigEmbedOracle : ModelOracle :=
  { constHalfOracle with useEmbed := fun _ => [[2], [2]] }

/-- A two-sentence input: its scored text `"a. b"` splits on `'.'` into two
parts. -/
def twoSentenceInput : AnalysisInput := ⟨"a.", "b", "", []⟩

end

lemma specInput_text : specInput.title ++ " " ++ specInput.abstract = "X Y" := by
  decide

lemma clarity_at_XY : calculate_clarity_score constHalfOracle "X Y" = 0 := by
  have hpool : meanPool [[(0 : ℝ), 0]] = [0, 0] := by
    rw [meanPool, show ([[(0 : ℝ), 0]].headD []).length = 2 from rfl,
      show List.range 2 = [0, 1] from rfl]
    simp [listMean]
  have hstd : sampleStd [(0 : ℝ), 0] = 0 := by
    have h : ((([(0 : ℝ), 0]).map fun x => (x - listMean [(0 : ℝ), 0]) ^ 2).sum /
        ((([(0 : ℝ), 0]).length : ℝ) - 1)) = 0 := by
      norm_num [listMean]
    rw [sampleStd, h, Real.sqrt_zero]
  rw [calculate_clarity_score,
    show constHalfOracle.bertLastHidden "X Y" = [[(0 : ℝ), 0]] from rfl, hpool,
    hstd]

lemma coherence_at_XY :
    calculate_coherence_score constHalfOracle "X Y" = 0.8 :=
  coherence_short _ _ (by decide)

lemma technical_depth_at_XY : assess_technical_depth "X Y" = 0 := by
  rw [assess_technical_depth, show count_technical_terms "X Y" = 0 from by decide]
  norm_num

lemma quality_agg_at_spec :
    (analyze_content_quality constHalfOracle specInput).lookup
      "overall_quality" = some (4 / 15) := by
  rw [lookup_overall_quality, specInput_text, clarity_at_XY, coherence_at_XY,
    technical_depth_at_XY]
  norm_num [listMean]

lemma novelty_agg_at_spec :
    (analyze_novelty constHalfOracle specInput).lookup "overall_novelty" =
      some (1 / 2) := by
  rw [lookup_overall_novelty]
  norm_num [constHalfOracle, listMean]

lemma methodology_agg_at_spec :
    (analyze_methodology constHalfOracle specInput).lookup
      "overall_methodology" = some (1 / 2) := by
  rw [lookup_overall_methodology]
  norm_num [constHalfOracle, listMean]

lemma impact_agg_at_spec :
    (analyze_impact_potential constHalfOracle specInput).lookup
      "overall_impact" = some (1 / 2) := by
  rw [lookup_overall_impact]
  norm_num [constHalfOracle, listMean]

/-! ### The claims -/

/-- C1.  Evaluation at the spec's end-to-end scenario: with the four
sub-aggregates `overall_quality = 4/15`, `overall_novelty = 1/2`,
`overall_methodology = 1/2` and `overall_impact = 1/2`, `analyze_research`
returns `overall_score = 0.35 = 0.25*(1/2) + 0.25*(1/2) + 0.2*(1/2)`, not the
claimed weighted sum `0.3*(4/15) + 0.25*(1/2) + 0.25*(1/2) + 0.2*(1/2) = 0.43`:
the aggregation derives the key `"overall_content"` for the quality dict,
which stores `"overall_quality"`, so the quality term is always dropped. -/
theorem overall_score_drops_quality_term :
    (analyze_research constHalfOracle specInput).overall_score = 0.35 ∧
    (analyze_research constHalfOracle specInput).content_quality.lookup
        "overall_quality" = some (4 / 15) ∧
    (analyze_research constHalfOracle specInput).novelty.lookup
        "overall_novelty" = some (1 / 2) ∧
    (analyze_research constHalfOracle specInput).methodology.lookup
        "overall_methodology" = some (1 / 2) ∧
    (analyze_research constHalfOracle specInput).impact_potential.lookup
        "overall_impact" = some (1 / 2) ∧
    0.3 * (4 / 15) + 0.25 * (1 / 2) + 0.25 * (1 / 2) + 0.2 * (1 / 2) =
      (0.43 : ℝ) ∧
    (0.35 : ℝ) < 0.43 := by
  refine ⟨?_, quality_agg_at_spec, novelty_agg_at_spec,
    methodology_agg_at_spec, impact_agg_at_spec, by norm_num, by norm_num⟩
  rw [analyze_research_overall_score, novelty_agg_at_spec,
    methodology_agg_at_spec, impact_agg_at_spec]
  norm_num

/-- C4.  Whenever the four sub-routine aggregates lie in `[0,1]`, the
`overall_score` of `analyze_research` lies in `[0,1]` (indeed in `[0, 0.7]`,
since the quality term is dropped and the summed weights are
`0.25 + 0.25 + 0.2`). -/
theorem overall_score_in_unit_interval (o : ModelOracle) (input : AnalysisInput)
    (hq : 0 ≤ ((analyze_content_quality o input).lookup "overall_quality").getD 0 ∧
      ((analyze_content_quality o input).lookup "overall_quality").getD 0 ≤ 1)
    (hn : 0 ≤ ((analyze_novelty o input).lookup "overall_novelty").getD 0 ∧
      ((analyze_novelty o input).lookup "overall_novelty").getD 0 ≤ 1)
    (hm : 0 ≤ ((analyze_methodology o input).lookup "overall_methodology").getD 0 ∧
      ((analyze_methodology o input).lookup "overall_methodology").getD 0 ≤ 1)
    (hi : 0 ≤ ((analyze_impact_potential o input).lookup "overall_impact").getD 0 ∧
      ((analyze_impact_potential o input).lookup "overall_impact").getD 0 ≤ 1) :
    0 ≤ (analyze_research o input).overall_score ∧
      (analyze_research o input).overall_score ≤ 1 := by
  rw [analyze_research_overall_score]
  obtain ⟨hn0, hn1⟩ := hn
  obtain ⟨hm0, hm1⟩ := hm
  obtain ⟨hi0, hi1⟩ := hi
  constructor <;> nlinarith [hq.1, hq.2]

/-- C4 witness: the unit-interval bound at the spec scenario, where the four
aggregates are `4/15`, `1/2`, `1/2`, `1/2`. -/
theorem overall_score_in_unit_interval_witness :
    0 ≤ (analyze_research constHalfOracle specInput).overall_score ∧
      (analyze_research constHalfOracle specInput).overall_score ≤ 1 := by
  refine overall_score_in_unit_interval constHalfOracle specInput ?_ ?_ ?_ ?_
  · rw [quality_agg_at_spec]; constructor <;> norm_num
  · rw [novelty_agg_at_spec]; constructor <;> norm_num
  · rw [methodology_agg_at_spec]; constructor <;> norm_num
  · rw [impact_agg_at_spec]; constructor <;> norm_num

/-- C7.  When the scored text `f"{title} {abstract}"` splits on `'.'` into
fewer than two parts, the coherence metric of the content-quality dict is the
literal `0.8`; in particular the computation is total on the empty text, where
it also yields `0.8`. -/
theorem coherence_default_short_text (o : ModelOracle) (input : AnalysisInput)
    (h : (sentencesOf (input.title ++ " " ++ input.abstract)).length < 2) :
    (analyze_content_quality o input).lookup "coherence" = some 0.8 ∧
    ∀ o' : ModelOracle, calculate_coherence_score o' "" = 0.8 := by
  refine ⟨?_, fun o' => coherence_short o' "" (by decide)⟩
  rw [lookup_coherence, coherence_short o _ h]

/-- `technical_depth` is clamped into `[0,1]` by the `min` and the
nonnegative count. -/
lemma technical_depth_bounds (text : String) :
    0 ≤ assess_technical_depth text ∧ assess_technical_depth text ≤ 1 :=
  ⟨le_min (by norm_num) (by positivity), (min_le_left _ _).trans (by norm_num)⟩

/-- C2 counterexample.  With a sentence encoder whose two rows are the vector
`[2]` — nothing in the code normalizes them — the coherence metric of the
content-quality dict on the two-sentence text `"a. b"` is the raw mean of the
pairwise inner products, `4`, which is outside `[0,1]`: the claim that every
sub-metric lies in `[0,1]` fails. -/
theorem coherence_exceeds_unit_interval :
    (analyze_content_quality bigEmbedOracle twoSentenceInput).lookup
        "coherence" = some 4 ∧ (1 : ℝ) < 4 := by
  have htext : twoSentenceInput.title ++ " " ++ twoSentenceInput.abstract =
      "a. b" := by decide
  have hcoh : calculate_coherence_score bigEmbedOracle "a. b" = 4 := by
    rw [calculate_coherence_score]
    rw [if_neg (by decide : ¬ (sentencesOf "a. b").length < 2)]
    rw [show bigEmbedOracle.useEmbed (sentencesOf "a. b") = [[(2 : ℝ)], [2]]
      from rfl]
    norm_num [dotProd, listMean]
  refine ⟨?_, by norm_num⟩
  rw [lookup_coherence, htext, hcoh]

/-- C2 as amended.  Bounded by construction is only `technical_depth`
(clamped by `min`), and each `overall_*` aggregate is bounded *conditionally*:
it lies in `[0,1]` whenever its constituent sub-metrics do.  The model-derived
sub-metrics themselves carry no bound (see the counterexample). -/
theorem submetric_bounds_amended (o : ModelOracle) (input : AnalysisInput) :
    (0 ≤ assess_technical_depth (input.title ++ " " ++ input.abstract) ∧
      assess_technical_depth (input.title ++ " " ++ input.abstract) ≤ 1) ∧
    ((0 ≤ calculate_clarity_score o (input.title ++ " " ++ input.abstract) ∧
        calculate_clarity_score o (input.title ++ " " ++ input.abstract) ≤ 1) →
      (0 ≤ calculate_coherence_score o (input.title ++ " " ++ input.abstract) ∧
        calculate_coherence_score o (input.title ++ " " ++ input.abstract) ≤ 1) →
      0 ≤ ((analyze_content_quality o input).lookup "overall_quality").getD 0 ∧
        ((analyze_content_quality o input).lookup "overall_quality").getD 0 ≤ 1) ∧
    ((0 ≤ o.uniqueness (o.specterEmbed (input.title ++ " " ++ input.abstract)) ∧
        o.uniqueness (o.specterEmbed (input.title ++ " " ++ input.abstract)) ≤ 1) →
      (0 ≤ o.innovation input ∧ o.innovation input ≤ 1) →
      0 ≤ ((analyze_novelty o input).lookup "overall_novelty").getD 0 ∧
        ((analyze_novelty o input).lookup "overall_novelty").getD 0 ≤ 1) ∧
    ((0 ≤ o.robustness input.content ∧ o.robustness input.content ≤ 1) →
      (0 ≤ o.validation input.content ∧ o.validation input.content ≤ 1) →
      0 ≤ ((analyze_methodology o input).lookup "overall_methodology").getD 0 ∧
        ((analyze_methodology o input).lookup "overall_methodology").getD 0 ≤ 1) ∧
    ((0 ≤ o.academicImpact
          ((o.useEmbed [input.title ++ " " ++ input.abstract]).headD []) ∧
        o.academicImpact
          ((o.useEmbed [input.title ++ " " ++ input.abstract]).headD []) ≤ 1) →
      (0 ≤ o.practicalImpact input ∧ o.practicalImpact input ≤ 1) →
      (0 ≤ o.citationPotential input ∧ o.citationPotential input ≤ 1) →
      0 ≤ ((analyze_impact_potential o input).lookup "overall_impact").getD 0 ∧
        ((analyze_impact_potential o input).lookup "overall_impact").getD 0 ≤ 1) := by
  refine ⟨technical_depth_bounds _, ?_, ?_, ?_, ?_⟩
  · intro hcl hco
    rw [lookup_overall_quality, Option.getD_some]
    have := (technical_depth_bounds (input.title ++ " " ++ input.abstract))
    rw [listMean]
    constructor <;>
      simp only [List.sum_cons, List.sum_nil, List.length_cons, List.length_nil] <;>
      push_cast <;> nlinarith [hcl.1, hcl.2, hco.1, hco.2, this.1, this.2]
  · intro hu hi
    rw [lookup_overall_novelty, Option.getD_some, listMean]
    constructor <;>
      simp only [List.sum_cons, List.sum_nil, List.length_cons, List.length_nil] <;>
      push_cast <;> nlinarith [hu.1, hu.2, hi.1, hi.2]
  · intro hr hv
    rw [lookup_overall_methodology, Option.getD_some, listMean]
    constructor <;>
      simp only [List.sum_cons, List.sum_nil, List.length_cons, List.length_nil] <;>
      push_cast <;> nlinarith [hr.1, hr.2, hv.1, hv.2]
  · intro ha hp hc
    rw [lookup_overall_impact, Option.getD_some, listMean]
    constructor <;>
      simp only [List.sum_cons, List.sum_nil, List.length_cons, List.length_nil] <;>
      push_cast <;> nlinarith [ha.1, ha.2, hp.1, hp.2, hc.1, hc.2]

/-- C2 witness: at the spec scenario the clarity and coherence values are `0`
and `0.8`, both in `[0,1]`, and the quality aggregate `4/15` is in `[0,1]`. -/
theorem submetric_bounds_amended_witness :
    0 ≤ ((analyze_content_quality constHalfOracle specInput).lookup
        "overall_quality").getD 0 ∧
      ((analyze_content_quality constHalfOracle specInput).lookup
        "overall_quality").getD 0 ≤ 1 := by
  refine (submetric_bounds_amended constHalfOracle specInput).2.1 ?_ ?_ <;>
    rw [specInput_text]
  · rw [clarity_at_XY]; norm_num
  · rw [coherence_at_XY]; norm_num

/-- C7 witness: the spec scenario's scored text `"X Y"` has a single part, and
its coherence is `0.8`. -/
theorem coherence_default_short_text_witness :
    (analyze_content_quality constHalfOracle specInput).lookup "coherence" =
      some 0.8 :=
  (coherence_default_short_text constHalfOracle specInput (by decide)).1

/-- C3.  In the aggregation step, a sub-result whose derived aggregate key
(`'overall_' +` the first `'_'`-separated word of the weight-map metric name)
is absent from its mapping contributes nothing to the sum: the summed terms
are exactly the present lookups weighted (a dropped term contributes `0`, no
default score is substituted for it), and replacing such a sub-result by the
empty mapping leaves the total unchanged.  The embedded aggregation is a total
function, so the call returns a sum rather than raising. -/
theorem overall_score_missing_key_dropped (results : List SubResult) :
    calculate_overall_score results =
      ((results.zip overallWeights).map fun p =>
        ((p.1.lookup (aggKey p.2.1)).getD 0) * p.2.2).sum ∧
    ∀ j r mw, results.get? j = some r → overallWeights.get? j = some mw →
      r.lookup (aggKey mw.1) = none →
      calculate_overall_score results =
        calculate_overall_score (results.set j ([] : SubResult)) := by
  refine ⟨calculate_overall_score_as_map results, ?_⟩
  intro j r mw hr hw hnone
  rw [calculate_overall_score_as_map, calculate_overall_score_as_map,
    zip_set_left results overallWeights j ([] : SubResult) mw hw,
    List.map_set]
  refine congrArg List.sum (list_set_self _ j _ ?_).symm
  rw [List.get?_map, zip_get?_of_get? results overallWeights j r mw hr hw]
  simp [hnone, List.lookup]

/-- C3 witness: on the four actual result shapes, the quality dict lacks its
derived key `"overall_content"`, and blanking it indeed leaves the score
unchanged. -/
theorem overall_score_missing_key_dropped_witness :
    (([("overall_quality", (1 : ℝ))] : SubResult).lookup
        (aggKey "content_quality") = none) ∧
      calculate_overall_score
          [[("overall_quality", (1 : ℝ))], [("overall_novelty", (1 : ℝ))]] =
        calculate_overall_score
          [([] : SubResult), [("overall_novelty", (1 : ℝ))]] := by
  have hlookup : (([("overall_quality", (1 : ℝ))] : SubResult).lookup
      (aggKey "content_quality") = none) := by
    rw [aggKey_content_quality]; simp [List.lookup]
  refine ⟨hlookup, ?_⟩
  exact (overall_score_missing_key_dropped
      [[("overall_quality", (1 : ℝ))], [("overall_novelty", (1 : ℝ))]]).2
    0 [("overall_quality", (1 : ℝ))] ("content_quality", 0.3) rfl rfl hlookup

/-- C9.  `technical_depth` can never exceed `13/100 = 0.13`: the fixed
vocabulary has exactly 13 terms, the count is the size of an intersection with
it, and the depth is the count divided by 100 capped at 1. -/
theorem technical_depth_le_13_over_100 :
    get_technical_terms.card = 13 ∧
      ∀ text : String, assess_technical_depth text ≤ 13 / 100 := by
  refine ⟨by decide, fun text => ?_⟩
  have hc : (count_technical_terms text : ℝ) ≤ 13 := by
    exact_mod_cast count_technical_terms_le text
  calc assess_technical_depth text ≤ (count_technical_terms text : ℝ) / 100 :=
        min_le_right _ _
    _ ≤ 13 / 100 := by linarith

/-- C8.  The saturation threshold is unreachable: even the text holding the
whole 13-term vocabulary counts only 13 technical terms and scores
`technical_depth = 13/100`, and no text can count more than 13 — so no input
has the more than 100 distinct vocabulary terms the claim's premise asks for,
and `technical_depth` never reaches `1.0`. -/
theorem technical_depth_saturation_unreachable :
    count_technical_terms
        "algorithm methodology framework analysis model system data research study implementation results performance evaluation" =
      13 ∧
    assess_technical_depth
        "algorithm methodology framework analysis model system data research study implementation results performance evaluation" =
      13 / 100 ∧
    ∀ text : String, count_technical_terms text ≤ 13 := by
  refine ⟨by decide, ?_, count_technical_terms_le⟩
  rw [assess_technical_depth]
  rw [show count_technical_terms
      "algorithm methodology framework analysis model system data research study implementation results performance evaluation" =
      13 from by decide]
  norm_num

/-- C5.  `analyze_research` is all-or-nothing: either every sub-routine
completed and the call returns the dict holding all four sub-results together
with their aggregated `overall_score`, or some sub-routine raised, the
exception propagates through the gather, and no result dict — in particular no
partial one — is produced. -/
theorem analyze_research_all_or_nothing {ε : Type}
    (rq rn rm ri : Except ε SubResult) :
    (∃ q n m i, rq = .ok q ∧ rn = .ok n ∧ rm = .ok m ∧ ri = .ok i ∧
      analyze_research_gathered rq rn rm ri =
        .ok { content_quality := q, novelty := n, methodology := m,
              impact_potential := i,
              overall_score := calculate_overall_score [q, n, m, i] }) ∨
    (∃ e, analyze_research_gathered rq rn rm ri = .error e ∧
      (rq = .error e ∨ rn = .error e ∨ rm = .error e ∨ ri = .error e)) := by
  rcases rq with e | q
  · exact .inr ⟨e, rfl, .inl rfl⟩
  rcases rn with e | n
  · exact .inr ⟨e, rfl, .inr (.inl rfl)⟩
  rcases rm with e | m
  · exact .inr ⟨e, rfl, .inr (.inr (.inl rfl))⟩
  rcases ri with e | i
  · exact .inr ⟨e, rfl, .inr (.inr (.inr rfl))⟩
  exact .inl ⟨q, n, m, i, rfl, rfl, rfl, rfl, rfl⟩

/-! ### Concrete service-layer instances -/

noncomputable section

/-- An analysis bundle whose overall score is `0`. -/
def zeroAnalysis : AnalysisResult :=
  { content_quality := [], novelty := [], methodology := [],
    impact_potential := [], overall_score := 0 }

/-- An analysis bundle whose overall score is `1`. -/
def oneAnalysis : AnalysisResult :=
  { content_quality := [], novelty := [], methodology := [],
    impact_potential := [], overall_score := 1 }

/-- A stored research record with id `1` and a nonempty embedding. -/
def baseRecord : Research :=
  { id := 1, title := "t", abstract := "a", content := "c", keywords := [],
    status := "draft", analysis_results := zeroAnalysis,
    embedding_vector := [1], topic_distribution := [] }

/-- The empty update dict. -/
def allNoneUpdate : UpdateData :=
  { title := none, abstract := none, content := none, keywords := none,
    status := none, analysis_results := none, embedding_vector := none,
    topic_distribution := none }

/-- A keywords-only update dict. -/
def keywordUpdate : UpdateData :=
  { allNoneUpdate with keywords := some ["k"] }

/-- An update dict that assigns only `analysis_results` — exactly the call the
repository's endpoints make after re-analysis. -/
def artifactOnlyUpdate : UpdateData :=
  { allNoneUpdate with analysis_results := some oneAnalysis }

/-- A two-record store with ids `1` and `2`. -/
def similarDb : List Research := [baseRecord, { baseRecord with id := 2 }]

/-- A search stub always ranking ids `1, 2, 3`. -/
def esStub : EsOracle := ⟨fun _ _ => [1, 2, 3]⟩

end

/-- C6 counterexample.  An update whose field set is `{analysis_results}` —
it contains none of `title`, `abstract`, `content` — does not leave the
analysis artifacts unchanged: the `setattr` loop overwrites
`analysis_results` with the assigned value. -/
theorem update_artifact_overwrite_counterexample :
    artifactOnlyUpdate.title = none ∧ artifactOnlyUpdate.abstract = none ∧
    artifactOnlyUpdate.content = none ∧
    research_update constHalfOracle [baseRecord] 1 artifactOnlyUpdate =
      some (applyFields baseRecord artifactOnlyUpdate) ∧
    baseRecord.analysis_results.overall_score = 0 ∧
    (applyFields baseRecord artifactOnlyUpdate).analysis_results.overall_score =
      1 ∧
    (0 : ℝ) < 1 := by
  exact ⟨rfl, rfl, rfl, rfl, rfl, rfl, one_pos⟩

/-- C6 as amended.  For an existing record, an update whose field set contains
none of `title`, `abstract`, `content` *and does not itself assign any of the
three artifact columns* leaves `analysis_results`, `embedding_vector` and
`topic_distribution` unchanged; and whenever the field set contains `title`,
`abstract` or `content`, all three artifacts are recomputed from the updated
text fields and overwritten. -/
theorem update_frame_amended (o : ModelOracle) (db : List Research) (rid : ℤ)
    (u : UpdateData) (r r' : Research) (hget : dbGet db rid = some r)
    (hupd : research_update o db rid u = some r') :
    ((u.title = none ∧ u.abstract = none ∧ u.content = none ∧
      u.analysis_results = none ∧ u.embedding_vector = none ∧
      u.topic_distribution = none) →
      r'.analysis_results = r.analysis_results ∧
      r'.embedding_vector = r.embedding_vector ∧
      r'.topic_distribution = r.topic_distribution) ∧
    ((u.title.isSome = true ∨ u.abstract.isSome = true ∨
      u.content.isSome = true) →
      r'.analysis_results =
        analyze_research o ⟨r'.title, r'.abstract, r'.content, r'.keywords⟩ ∧
      r'.embedding_vector = o.specterEmbed (r'.title ++ " " ++ r'.abstract) ∧
      r'.topic_distribution = o.extractTopics r'.content) := by
  have hr' : r' = if contentChanged u then reanalyze o (applyFields r u)
      else applyFields r u := by
    rw [research_update, hget, Option.map_some'] at hupd
    exact (Option.some.inj hupd).symm
  constructor
  · rintro ⟨ht, ha, hc, han, hem, htp⟩
    have hcc : contentChanged u = false := by
      simp [contentChanged, ht, ha, hc]
    rw [hr', hcc]
    simp [applyFields, han, hem, htp]
  · intro h
    have hcc : contentChanged u = true := by
      rcases h with h | h | h <;> simp [contentChanged, h]
    rw [hr', hcc]
    refine ⟨?_, ?_, ?_⟩ <;> simp [reanalyze]

/-- C6 witness: a keywords-only update of the stored record leaves all three
artifacts untouched. -/
theorem update_frame_amended_witness :
    (applyFields baseRecord keywordUpdate).analysis_results =
      baseRecord.analysis_results ∧
    (applyFields baseRecord keywordUpdate).embedding_vector =
      baseRecord.embedding_vector ∧
    (applyFields baseRecord keywordUpdate).topic_distribution =
      baseRecord.topic_distribution := by
  have hget : dbGet [baseRecord] 1 = some baseRecord := by
    simp [dbGet, baseRecord]
  have hupd : research_update constHalfOracle [baseRecord] 1 keywordUpdate =
      some (applyFields baseRecord keywordUpdate) := rfl
  exact (update_frame_amended constHalfOracle [baseRecord] 1 keywordUpdate
      baseRecord (applyFields baseRecord keywordUpdate) hget hupd).1
    ⟨rfl, rfl, rfl, rfl, rfl, rfl⟩

/-- C10.  `find_similar` never returns the queried paper itself, returns at
most `limit` records whenever the stored ids are distinct (they are a primary
key), and returns `[]` when the queried record is absent or its stored
embedding is empty/falsy. -/
theorem find_similar_properties (es : EsOracle) (db : List Research) (rid : ℤ)
    (limit : ℕ) :
    (∀ p ∈ find_similar es db rid limit, p.id ≠ rid) ∧
    ((db.map fun r => r.id).Nodup →
      (find_similar es db rid limit).length ≤ limit) ∧
    (dbGet db rid = none → find_similar es db rid limit = []) ∧
    (∀ r, dbGet db rid = some r → r.embedding_vector = [] →
      find_similar es db rid limit = []) := by
  rcases hget : dbGet db rid with _ | research
  · rw [find_similar, hget]
    exact ⟨by simp, by simp, by simp, by simp⟩
  by_cases hemb : research.embedding_vector = []
  · rw [find_similar, hget]
    simp only [if_pos hemb]
    exact ⟨by simp, by simp, by simp [hget], by simp⟩
  · rw [find_similar, hget]
    simp only [if_neg hemb]
    refine ⟨?_, ?_, by simp [hget], ?_⟩
    · intro p hp
      have h2 := (List.mem_filter.mp hp).2
      have hmem : p.id ∈ ((es.search research.embedding_vector
          (limit + 1)).filter fun h => h ≠ rid).take limit :=
        of_decide_eq_true h2
      have hx' := List.mem_of_mem_take hmem
      exact of_decide_eq_true (List.mem_filter.mp hx').2
    · intro hnodup
      have hsub : List.Sublist
          ((db.filter fun p => decide (p.id ∈
            ((es.search research.embedding_vector (limit + 1)).filter
              fun h => h ≠ rid).take limit)).map fun r => r.id)
          (db.map fun r => r.id) :=
        (List.filter_sublist db).map _
      have hnd := hnodup.sublist hsub
      have hsubset :
          ((db.filter fun p => decide (p.id ∈
            ((es.search research.embedding_vector (limit + 1)).filter
              fun h => h ≠ rid).take limit)).map fun r => r.id) ⊆
          ((es.search research.embedding_vector (limit + 1)).filter
            fun h => h ≠ rid).take limit := by
        intro x hx
        rcases List.mem_map.mp hx with ⟨p, hp, rfl⟩
        exact of_decide_eq_true (List.mem_filter.mp hp).2
      have hlen := (List.subperm_of_subset hnd hsubset).length_le
      rw [List.length_map] at hlen
      exact hlen.trans (List.length_take_le _ _)
    · intro r hr
      exact fun he => absurd ((Option.some.inj hr) ▸ he) hemb

/-- C10 witness: on a two-record store, querying id `1` with limit `1` returns
no record with id `1` and at most one record, and querying an absent id
returns `[]`. -/
theorem find_similar_properties_witness :
    ({ baseRecord with id := 2 } : Research).id ≠ 1 ∧
    (find_similar esStub similarDb 1 1).length ≤ 1 ∧
    find_similar esStub similarDb 9 1 = [] := by
  refine ⟨(find_similar_properties esStub similarDb 1 1).1
      { baseRecord with id := 2 } ?_, ?_, ?_⟩
  · rw [show find_similar esStub similarDb 1 1 =
        [{ baseRecord with id := 2 }] from rfl]
    exact List.mem_singleton.mpr rfl
  · refine (find_similar_properties esStub similarDb 1 1).2.1 ?_
    rw [show (similarDb.map fun r => r.id) = [1, 2] from rfl]
    decide
  · refine (find_similar_properties esStub similarDb 9 1).2.2.1 ?_
    simp [dbGet, similarDb, baseRecord]

end PortfolioResearch
